import Mathlib

/-!
# Verification of the DAIOE months merge pipeline (`main.py`)

Shallow embedding of the polars pipeline in `src/main.py`:

* `clean_scb_months` — filter out rows whose `code_1` starts with `"0"`,
  then derive an integer `year` column from the first four characters of
  `month` (regex extract `^(\d{4})` followed by a cast to `Int64`).
* `prepare_daioe_level1` — filter to `level == "SSYK1"`, project the key
  columns plus the dynamic `daioe_*` / `pctl_daioe_*` measure columns,
  group by (`level`, `ssyk_code`, `year`) and aggregate: `weight_sum` as
  mean cast to `Int64`, the measures as plain means.
* `merge_months_with_daioe` — left join of the cleaned SCB view with the
  aggregated DAIOE view on (`code_1`,`year`) = (`ssyk_code`,`year`),
  then drop the `level` column.
* `inspect_lazy` — print a one-line shape summary
  `f"{name}: {n_rows:,} rows x {n_cols} columns"`.

Modelling conventions:

* A lazy frame is modelled by the list of rows it evaluates to; nullable
  columns are `Option`-valued fields.  Polars' Kleene logic for filters
  (a null predicate drops the row, because only `true` rows are kept) is
  written out explicitly in the predicates.
* The dynamic (schema-driven) set of `daioe_*`/`pctl_daioe_*` measure
  columns is modelled positionally: each row carries a list of measure
  values, and the measure-column count `k` of the schema is a parameter.
* Float64 arithmetic of `mean` is modelled by exact rational arithmetic
  (`ℚ`); the `Float64 → Int64` cast is Rust `as` semantics, i.e.
  truncation toward zero, `q.num.tdiv q.den`.
* String columns are scanned through `String.toList`; `\d` of the regex
  is modelled by `Char.isDigit`, and the string-to-integer cast by a
  digit parse with an optional leading minus sign.
-/

namespace DaioeMonths

/-- One raw row of the SCB monthly dataset (`scb_months.parquet`): the
`code_1` and `month` columns the cleaner touches, plus the remaining
passthrough attributes. -/
structure ScbRow where
  code_1 : Option String
  month : Option String
  extra : List (String × Option String)
deriving DecidableEq, Repr

/-- One row of the cleaned SCB view: the raw attributes plus the derived
nullable `year` column. -/
structure ScbCleanRow where
  code_1 : Option String
  month : Option String
  extra : List (String × Option String)
  year : Option Int
deriving DecidableEq, Repr

/-- `s.str.starts_with("0")` on a non-null string: true iff the first
character is `'0'`. -/
def startsWith0 (s : String) : Bool :=
  match s.toList with
  | c :: _ => decide (c = '0')
  | [] => false

/-- The filter predicate `~pl.col("code_1").str.starts_with("0")` under
polars' Kleene logic: a null `code_1` gives a null predicate, and
`filter` keeps only rows where the predicate is `true`, so null rows are
dropped. -/
def keepScbRow (r : ScbRow) : Bool :=
  match r.code_1 with
  | some s => !(startsWith0 s)
  | none => false

/-- Parse a non-empty all-digit character list as a natural number
(base 10); `none` otherwise. -/
def parseDigits (ds : List Char) : Option Nat :=
  if ds ≠ [] ∧ ds.all Char.isDigit then
    some (ds.foldl (fun n c => 10 * n + (c.toNat - '0'.toNat)) 0)
  else none

/-- `pl.col("month").str.extract(r"^(\d{4})", 1)`: the first four
characters when they are all digits, `none` (null) when the regex does
not match. -/
def extractYear4 (m : String) : Option String :=
  if 4 ≤ m.toList.length ∧ (m.toList.take 4).all Char.isDigit then
    some (String.mk (m.toList.take 4))
  else none

/-- `cast(pl.Int64)` on a string column: parse an optional leading minus
sign followed by digits; null on a non-null unparsable string is never
reached in this pipeline (the cast input is a 4-digit extract or null). -/
def castStrInt64 (s : String) : Option Int :=
  match s.toList with
  | c :: ds =>
      if c = '-' then (parseDigits ds).map (fun n => -(n : Int))
      else (parseDigits (c :: ds)).map (fun n => (n : Int))
  | [] => none

/-- The derived `year` column of one row: extract then cast, with null
propagating through both steps. -/
def deriveYear (month : Option String) : Option Int :=
  (month.bind extractYear4).bind castStrInt64

/-- `clean_scb_months`: drop rows whose `code_1` starts with `"0"` (and,
by Kleene logic, rows with null `code_1`), then add the derived `year`
column. -/
def clean_scb_months (rows : List ScbRow) : List ScbCleanRow :=
  (rows.filter keepScbRow).map
    (fun r => ⟨r.code_1, r.month, r.extra, deriveYear r.month⟩)

/-- One raw row of the DAIOE exposure dataset, restricted to the columns
the aggregator projects: the key columns, `weight_sum`, and the dynamic
`daioe_*` / `pctl_daioe_*` measure columns (positional, schema order). -/
structure DaioeRow where
  level : Option String
  ssyk_code : Option String
  year : Option Int
  weight_sum : Option Int
  measures : List (Option Rat)
deriving DecidableEq, Repr

/-- One row of the aggregated DAIOE level-1 view. -/
structure DaioeAggRow where
  level : Option String
  ssyk_code : Option String
  year : Option Int
  weight_sum : Option Int
  measures : List (Option Rat)
deriving DecidableEq, Repr

/-- The filter `pl.col("level") == "SSYK1"`: Kleene equality, so a null
`level` yields null and the row is dropped. -/
def levelIsSSYK1 (r : DaioeRow) : Bool :=
  match r.level with
  | some s => decide (s = "SSYK1")
  | none => false

/-- The group-by key of a DAIOE row: (`level`, `ssyk_code`, `year`). -/
def daioeKey (r : DaioeRow) : Option String × Option String × Option Int :=
  (r.level, r.ssyk_code, r.year)

/-- The `Int64 → Float64` widening that precedes `pl.mean` on an
integer column, modelled as the exact embedding of `ℤ` into `ℚ`. -/
def ratOfInt (i : Int) : Rat :=
  (i : Rat)

/-- `pl.mean` over the non-null values of a column slice: null for an
all-null (empty) slice, otherwise the exact rational mean. -/
def meanRat (xs : List Rat) : Option Rat :=
  if xs = [] then none else some (xs.sum / (xs.length : Rat))

/-- The `Float64 → Int64` cast used by `cast(pl.Int64)` on the mean:
Rust `as` semantics, truncation toward zero. -/
def castF64ToI64 (q : Rat) : Int :=
  q.num.tdiv q.den

/-- Aggregate one group (`grp` is the list of rows sharing `key`):
`weight_sum` is mean-then-cast, each of the `k` measure columns is
mean-aggregated positionally. -/
def aggGroup (k : Nat) (key : Option String × Option String × Option Int)
    (grp : List DaioeRow) : DaioeAggRow :=
  { level := key.1
    ssyk_code := key.2.1
    year := key.2.2
    weight_sum :=
      (meanRat ((grp.filterMap (fun r => r.weight_sum)).map ratOfInt)).map
        castF64ToI64
    measures :=
      (List.range k).map
        (fun j => meanRat (grp.filterMap (fun r => r.measures.getD j none))) }

/-- `prepare_daioe_level1`: filter to `level == "SSYK1"`, then group by
(`level`, `ssyk_code`, `year`) and aggregate.  `k` is the number of
`daioe_*`/`pctl_daioe_*` measure columns found in the schema.  Groups
are enumerated in first-appearance order of their keys. -/
def prepare_daioe_level1 (k : Nat) (rows : List DaioeRow) : List DaioeAggRow :=
  (((rows.filter levelIsSSYK1).map daioeKey).dedup).map
    (fun key => aggGroup k key
      ((rows.filter levelIsSSYK1).filter (fun r => decide (daioeKey r = key))))

/-- One output row of the merger: the monthly attributes, plus the
aggregate's non-key columns (`weight_sum` and the measures).  The
`level` column is dropped right after the join (`.drop("level")`), and
the right-side join keys `ssyk_code`/`year` are coalesced away by the
left join, so neither appears here. -/
structure MergedRow where
  code_1 : Option String
  month : Option String
  extra : List (String × Option String)
  year : Option Int
  weight_sum : Option Int
  measures : List (Option Rat)
deriving DecidableEq, Repr

/-- Join-key match between a left (cleaned SCB) row and a right
(aggregated DAIOE) row: (`code_1`,`year`) = (`ssyk_code`,`year`), with
polars' default `join_nulls=False`, so a null key never matches. -/
def joinKeyMatch (l : ScbCleanRow) (r : DaioeAggRow) : Bool :=
  match l.code_1, l.year, r.ssyk_code, r.year with
  | some c, some y, some c2, some y2 => decide (c = c2) && decide (y = y2)
  | _, _, _, _ => false

/-- The left-join contribution of one left row: one output row per
matching right row, or a single null-padded output row when no right
row matches (`k` is the measure-column count of the right schema, which
fixes the width of the null padding). -/
def joinOneRow (right : List DaioeAggRow) (k : Nat) (l : ScbCleanRow) :
    List MergedRow :=
  match right.filter (joinKeyMatch l) with
  | [] => [⟨l.code_1, l.month, l.extra, l.year, none, List.replicate k none⟩]
  | ms => ms.map (fun r => ⟨l.code_1, l.month, l.extra, l.year, r.weight_sum, r.measures⟩)

/-- `merge_months_with_daioe`: left outer join on
(`code_1`,`year`) = (`ssyk_code`,`year`), then drop `level`. -/
def merge_months_with_daioe (left : List ScbCleanRow)
    (right : List DaioeAggRow) (k : Nat) : List MergedRow :=
  left.flatMap (joinOneRow right k)

/-- Insert a comma after every group of three characters, operating on a
reversed digit list (so commas land every three digits from the right,
as Python's `f"{n:,}"` format does). -/
def commaRev : List Char → List Char
  | d1 :: d2 :: d3 :: d4 :: rest => d1 :: d2 :: d3 :: ',' :: commaRev (d4 :: rest)
  | l => l

/-- Python's `f"{n:,}"` for a natural number: decimal digits grouped in
threes by commas. -/
def commaFmt (n : Nat) : String :=
  String.mk ((commaRev (Nat.repr n).toList.reverse).reverse)

/-- `inspect_lazy(name, lf)`: the list of lines written to standard
output — a single line `f"{name}: {n_rows:,} rows x {n_cols} columns"`,
where `nRows` is the view's row count and `nCols` its column count. -/
def inspect_lazy (name : String) (nRows nCols : Nat) : List String :=
  [name ++ ": " ++ commaFmt nRows ++ " rows x " ++ Nat.repr nCols ++ " columns"]

/-! ## Helper lemmas -/

/-- Spec-side phrasing of the `Float64 → Int64` cast: truncation toward
zero, i.e. floor for nonnegative values and ceiling for negative ones. -/
def truncToward0 (q : Rat) : Int :=
  if 0 ≤ q then ⌊q⌋ else ⌈q⌉

theorem castF64ToI64_eq_truncToward0 (q : Rat) : castF64ToI64 q = truncToward0 q := by
  unfold castF64ToI64 truncToward0
  by_cases h : 0 ≤ q
  · rw [if_pos h, Rat.floor_def]
    exact Int.tdiv_eq_ediv (by exact_mod_cast Rat.num_nonneg.mpr h) (Int.ofNat_nonneg _)
  · rw [if_neg h]
    have h2 : 0 ≤ -q := by linarith [lt_of_not_le h]
    have h3 : q.num.tdiv q.den = -((-q).num.tdiv (-q).den) := by
      rw [Rat.neg_num, Rat.neg_den, Int.neg_tdiv, neg_neg]
    rw [h3, Int.tdiv_eq_ediv (by exact_mod_cast Rat.num_nonneg.mpr h2) (Int.ofNat_nonneg _)]
    rw [← Rat.floor_def, show q = -(-q) by ring, Int.ceil_neg]
    simp

theorem mem_clean_scb_months {rows : List ScbRow} {r : ScbCleanRow}
    (h : r ∈ clean_scb_months rows) :
    ∃ x ∈ rows, keepScbRow x = true ∧
      r = ⟨x.code_1, x.month, x.extra, deriveYear x.month⟩ := by
  unfold clean_scb_months at h
  obtain ⟨x, hx, rfl⟩ := List.mem_map.mp h
  exact ⟨x, (List.mem_filter.mp hx).1, (List.mem_filter.mp hx).2, rfl⟩

/-! ## Claims about the SCB Cleaner -/

/-- C6: for every input Monthly view, the SCB Cleaner's output contains
no row whose `code_1` begins with the literal prefix `"0"`. -/
theorem clean_output_has_no_zero_code (rows : List ScbRow) (r : ScbCleanRow)
    (h : r ∈ clean_scb_months rows) (s : String) (hc : r.code_1 = some s) :
    startsWith0 s = false := by
  obtain ⟨x, _, hkeep, rfl⟩ := mem_clean_scb_months h
  simp only at hc
  unfold keepScbRow at hkeep
  rw [hc] at hkeep
  simpa using hkeep

theorem clean_output_has_no_zero_code_witness : startsWith0 "1002" = false :=
  clean_output_has_no_zero_code [⟨some "1002", some "2020M03", []⟩]
    ⟨some "1002", some "2020M03", [], some 2020⟩ (by decide) "1002" rfl

/-- C10: a null `code_1` makes the starts-with predicate null, and the
filter keeps only rows where the negated predicate is `true`, so every
null-`code_1` row is removed along with the `"0"`-prefixed ones; hence
`code_1` is non-null in every cleaner output row. -/
theorem clean_output_code_nonnull (rows : List ScbRow) (r : ScbCleanRow)
    (h : r ∈ clean_scb_months rows) : r.code_1.isSome = true := by
  obtain ⟨x, _, hkeep, rfl⟩ := mem_clean_scb_months h
  unfold keepScbRow at hkeep
  simp only
  cases hc : x.code_1 with
  | none => rw [hc] at hkeep; simp at hkeep
  | some s => rfl

theorem clean_output_code_nonnull_witness :
    (⟨some "1002", some "2020M03", [], some 2020⟩ : ScbCleanRow).code_1.isSome = true :=
  clean_output_code_nonnull [⟨some "1002", some "2020M03", []⟩, ⟨none, some "2020M04", []⟩]
    ⟨some "1002", some "2020M03", [], some 2020⟩ (by decide)

/-- C7: for every row surviving the cleaner's filter, when the first
four characters of `month` are digits and parse to `n`, the derived
`year` attribute equals `n`. -/
theorem year_is_parse_of_first_four (rows : List ScbRow) (r : ScbCleanRow)
    (m : String) (n : Nat) (h : r ∈ clean_scb_months rows) (hm : r.month = some m)
    (hlen : 4 ≤ m.toList.length) (hdig : (m.toList.take 4).all Char.isDigit = true)
    (hp : parseDigits (m.toList.take 4) = some n) :
    r.year = some (n : Int) := by
  obtain ⟨x, _, _, rfl⟩ := mem_clean_scb_months h
  simp only at hm ⊢
  rw [hm]
  unfold deriveYear
  rw [Option.some_bind]
  unfold extractYear4
  rw [if_pos ⟨hlen, hdig⟩, Option.some_bind]
  revert hp hdig
  generalize m.toList.take 4 = t4
  intro hdig hp
  cases t4 with
  | nil => simp [parseDigits] at hp
  | cons c rest =>
    have hcd : c.isDigit = true := by
      simp only [List.all_cons, Bool.and_eq_true] at hdig
      exact hdig.1
    have hcne : c ≠ '-' := by
      intro he
      rw [he] at hcd
      exact absurd hcd (by decide)
    show (if c = '-' then (parseDigits rest).map (fun k => -(k : Int))
        else (parseDigits (c :: rest)).map (fun k => (k : Int))) = some (n : Int)
    rw [if_neg hcne, hp]
    rfl

theorem year_is_parse_of_first_four_witness :
    (⟨some "1", some "2020M01", [], some 2020⟩ : ScbCleanRow).year = some ((2020 : Nat) : Int) :=
  year_is_parse_of_first_four [⟨some "1", some "2020M01", []⟩]
    ⟨some "1", some "2020M01", [], some 2020⟩ "2020M01" 2020
    (by decide) rfl (by decide) (by decide) (by decide)

/-- C2 counterexample: a row whose `month` has no 4-digit prefix is not
rejected at execution time; it survives cleaning with a silently
null-coerced `year`, contradicting the claimed *MalformedRecord*
failure / no-silent-coercion policy. -/
theorem malformed_month_coerced_to_null :
    clean_scb_months [⟨some "1", some "garbage", []⟩] =
      [⟨some "1", some "garbage", [], none⟩] := by
  decide

/-- C2 (amended): for every cleaner output row whose `month` does not
begin with 4 digits, the derived `year` attribute is null — the regex
extract yields null and the cast propagates it; no error is raised. -/
theorem malformed_month_year_is_null (rows : List ScbRow) (r : ScbCleanRow)
    (m : String) (h : r ∈ clean_scb_months rows) (hm : r.month = some m)
    (hbad : ¬(4 ≤ m.toList.length ∧ (m.toList.take 4).all Char.isDigit = true)) :
    r.year = none := by
  obtain ⟨x, _, _, rfl⟩ := mem_clean_scb_months h
  simp only at hm ⊢
  rw [hm]
  unfold deriveYear
  rw [Option.some_bind]
  unfold extractYear4
  rw [if_neg hbad]
  rfl

theorem malformed_month_year_is_null_witness :
    (⟨some "1", some "garbage", [], none⟩ : ScbCleanRow).year = none :=
  malformed_month_year_is_null [⟨some "1", some "garbage", []⟩]
    ⟨some "1", some "garbage", [], none⟩ "garbage" (by decide) rfl (by decide)

/-- C5 counterexample: with input rows `(code_1 = "0001", month =
"2020M01")` and `(code_1 = "0002", month = "2020M02")`, the cleaner
keeps neither row — both codes literally start with `"0"` — so the
claim that both rows are kept is false. -/
theorem zero_code_scenario_rows_not_kept :
    clean_scb_months
      [⟨some "0001", some "2020M01", []⟩, ⟨some "0002", some "2020M02", []⟩] = [] := by
  decide

/-- C5 (amended): the cleaner drops both scenario rows, since each
`code_1` literally starts with the character `"0"` at position 0; the
semantics is exact-prefix, not membership in an exclusion set — a code
merely containing `"0"` in a non-leading position, such as `"1002"`,
is kept. -/
theorem zero_code_rows_dropped_nonleading_zero_kept :
    clean_scb_months
      [⟨some "0001", some "2020M01", []⟩, ⟨some "0002", some "2020M02", []⟩,
       ⟨some "1002", some "2020M03", []⟩] =
      [⟨some "1002", some "2020M03", [], some 2020⟩] := by
  decide

/-! ## Claims about the Shape Inspector -/

theorem commaRev_short (l : List Char) (h : l.length ≤ 3) : commaRev l = l := by
  match l with
  | [] => rfl
  | [a] => rfl
  | [a, b] => rfl
  | [a, b, c] => rfl
  | a :: b :: c :: d :: rest => simp at h

/-- C9 counterexample: at a row count of 1000 the inspector's line is
`"Clean SCB: 1,000 rows x 5 columns"` — the row count is rendered with a
comma thousands separator (Python's `f"{n_rows:,}"`), so the output is
not the claimed plain form `"{label}: {rows} rows x {cols} columns"`. -/
theorem inspect_line_comma_counterexample :
    inspect_lazy "Clean SCB" 1000 5 ≠ ["Clean SCB: 1000 rows x 5 columns"] ∧
      inspect_lazy "Clean SCB" 1000 5 = ["Clean SCB: 1,000 rows x 5 columns"] := by
  constructor
  · decide
  · decide

/-- C9 (amended): the inspector writes exactly one line, of the form
`"{label}: {rows:,} rows x {cols} columns"` with the row count rendered
with comma thousands separators; whenever the row count has at most
three decimal digits this coincides with the plain claimed form
`"{label}: {rows} rows x {cols} columns"`. -/
theorem inspect_line_format (name : String) (r c : Nat)
    (h : (Nat.repr r).toList.length ≤ 3) :
    inspect_lazy name r c =
      [name ++ ": " ++ Nat.repr r ++ " rows x " ++ Nat.repr c ++ " columns"] := by
  unfold inspect_lazy commaFmt
  rw [commaRev_short _ (by simpa using h)]
  rw [List.reverse_reverse]
  have hmk : String.mk (Nat.repr r).toList = Nat.repr r := by
    cases hs : Nat.repr r
    rfl
  rw [hmk]

theorem inspect_line_format_witness :
    inspect_lazy "Clean SCB" 123 5 = ["Clean SCB: 123 rows x 5 columns"] :=
  (inspect_line_format "Clean SCB" 123 5 (by decide)).trans (by decide)

/-! ## Claims about the DAIOE Aggregator -/

theorem prepare_map_key (k : Nat) (rows : List DaioeRow) :
    (prepare_daioe_level1 k rows).map (fun r => (r.level, r.ssyk_code, r.year))
      = ((rows.filter levelIsSSYK1).map daioeKey).dedup := by
  unfold prepare_daioe_level1
  rw [List.map_map]
  exact List.map_id _

/-- C4: the aggregator's output contains exactly one row per distinct
(`level`, `ssyk_code`, `year`) triple — the list of key triples of the
output rows has no duplicates, for every input view and schema. -/
theorem agg_output_keys_unique (k : Nat) (rows : List DaioeRow) :
    ((prepare_daioe_level1 k rows).map
      (fun r => (r.level, r.ssyk_code, r.year))).Nodup := by
  rw [prepare_map_key]
  exact List.nodup_dedup _

/-- C3: for every group in the aggregator's output, `weight_sum` is the
mean of the group's (non-null) `weight_sum` values truncated toward
zero (floor for nonnegative means, ceiling for negative ones — cast
semantics, not rounding); in particular two rows for
(`SSYK1`, `"1"`, 2020) with values 10 and 11 aggregate to 10, the
truncation of 10.5, not the rounding 11. -/
theorem weight_sum_is_truncated_mean :
    (∀ (k : Nat) (rows : List DaioeRow) (r : DaioeAggRow),
      r ∈ prepare_daioe_level1 k rows →
      ∀ ws : List Int,
        ws = ((rows.filter levelIsSSYK1).filter
            (fun x => decide (daioeKey x = (r.level, r.ssyk_code, r.year)))).filterMap
              (fun x => x.weight_sum) →
        ws ≠ [] →
        r.weight_sum =
          some (truncToward0 ((ws.map ratOfInt).sum / (ws.length : Rat))))
    ∧ (prepare_daioe_level1 0
        [⟨some "SSYK1", some "1", some 2020, some 10, []⟩,
         ⟨some "SSYK1", some "1", some 2020, some 11, []⟩]).map
          (fun r => r.weight_sum) = [some 10] := by
  constructor
  · intro k rows r hr ws hws hne
    unfold prepare_daioe_level1 at hr
    obtain ⟨key, hkey, rfl⟩ := List.mem_map.mp hr
    have hkeyeq :
        ((aggGroup k key ((rows.filter levelIsSSYK1).filter
            (fun x => decide (daioeKey x = key)))).level,
         (aggGroup k key ((rows.filter levelIsSSYK1).filter
            (fun x => decide (daioeKey x = key)))).ssyk_code,
         (aggGroup k key ((rows.filter levelIsSSYK1).filter
            (fun x => decide (daioeKey x = key)))).year) = key := rfl
    rw [hkeyeq] at hws
    simp only [aggGroup]
    rw [← hws]
    unfold meanRat
    rw [if_neg (by simpa using hne)]
    simp only [Option.map_some']
    rw [castF64ToI64_eq_truncToward0, List.length_map]
  · simp [prepare_daioe_level1, aggGroup, meanRat, daioeKey, ratOfInt,
      levelIsSSYK1, List.filter, List.dedup, castF64ToI64_eq_truncToward0,
      truncToward0]
    norm_num

theorem weight_sum_is_truncated_mean_witness :
    (⟨some "SSYK1", some "1", some 2020, some 10, []⟩ : DaioeAggRow).weight_sum =
      some (truncToward0 ((([10, 11] : List Int).map ratOfInt).sum /
        (([10, 11] : List Int).length : Rat))) := by
  have hlist : prepare_daioe_level1 0
      [⟨some "SSYK1", some "1", some 2020, some 10, []⟩,
       ⟨some "SSYK1", some "1", some 2020, some 11, []⟩] =
      [⟨some "SSYK1", some "1", some 2020, some 10, []⟩] := by
    simp [prepare_daioe_level1, aggGroup, meanRat, daioeKey, ratOfInt,
      levelIsSSYK1, List.filter, List.dedup, castF64ToI64_eq_truncToward0,
      truncToward0]
    norm_num
  exact weight_sum_is_truncated_mean.1 0
    [⟨some "SSYK1", some "1", some 2020, some 10, []⟩,
     ⟨some "SSYK1", some "1", some 2020, some 11, []⟩]
    ⟨some "SSYK1", some "1", some 2020, some 10, []⟩
    (hlist ▸ List.mem_singleton.mpr rfl) [10, 11] (by decide) (by decide)

/-! ## Claims about the Merger -/

theorem dedup_key_level {rows : List DaioeRow}
    {key : Option String × Option String × Option Int}
    (h : key ∈ ((rows.filter levelIsSSYK1).map daioeKey).dedup) :
    key.1 = some "SSYK1" := by
  rw [List.mem_dedup] at h
  obtain ⟨r, hr, rfl⟩ := List.mem_map.mp h
  have hlv := (List.mem_filter.mp hr).2
  unfold levelIsSSYK1 at hlv
  unfold daioeKey
  cases hl : r.level with
  | none => rw [hl] at hlv; simp at hlv
  | some s =>
    rw [hl] at hlv
    simp at hlv
    simp [hl, hlv]

theorem prepare_pair_keys_nodup (k : Nat) (rows : List DaioeRow) :
    ((prepare_daioe_level1 k rows).map (fun r => (r.ssyk_code, r.year))).Nodup := by
  have h1 : (prepare_daioe_level1 k rows).map (fun r => (r.ssyk_code, r.year))
      = (((rows.filter levelIsSSYK1).map daioeKey).dedup).map
          (fun key => (key.2.1, key.2.2)) := by
    unfold prepare_daioe_level1
    rw [List.map_map]
    rfl
  rw [h1]
  apply List.Nodup.map_on ?_ (List.nodup_dedup _)
  intro x hx y hy hxy
  obtain ⟨x1, x2, x3⟩ := x
  obtain ⟨y1, y2, y3⟩ := y
  simp only [Prod.mk.injEq] at hxy ⊢
  exact ⟨(dedup_key_level hx).trans (dedup_key_level hy).symm, hxy⟩

theorem length_filter_le_one_of_key {α β : Type} (l : List α) (f : α → β)
    (hnd : (l.map f).Nodup) (p : α → Bool) (t : β)
    (hp : ∀ a, p a = true → f a = t) : (l.filter p).length ≤ 1 := by
  induction l with
  | nil => simp
  | cons a tl ih =>
    rw [List.map_cons, List.nodup_cons] at hnd
    by_cases hpa : p a = true
    · rw [List.filter_cons_of_pos hpa]
      have htl : tl.filter p = [] := by
        rw [List.filter_eq_nil_iff]
        intro b hb hpb
        exact hnd.1 (((hp b hpb).trans (hp a hpa).symm) ▸ List.mem_map_of_mem f hb)
      rw [htl]
      simp
    · rw [List.filter_cons_of_neg (by simpa using hpa)]
      exact ih hnd.2

theorem joinOneRow_length (right : List DaioeAggRow) (k : Nat) (l : ScbCleanRow)
    (h : (right.filter (joinKeyMatch l)).length ≤ 1) :
    (joinOneRow right k l).length = 1 := by
  unfold joinOneRow
  cases hm : right.filter (joinKeyMatch l) with
  | nil => rfl
  | cons m ms =>
    rw [hm] at h
    simp only [List.length_cons] at h
    simp only [List.length_map, List.length_cons]
    omega

theorem merge_length_of_unique (left : List ScbCleanRow)
    (right : List DaioeAggRow) (k : Nat)
    (h : ∀ l ∈ left, (right.filter (joinKeyMatch l)).length ≤ 1) :
    (merge_months_with_daioe left right k).length = left.length := by
  induction left with
  | nil => rfl
  | cons a tl ih =>
    have ha := joinOneRow_length right k a (h a (List.mem_cons_self a tl))
    show (joinOneRow right k a ++ tl.flatMap (joinOneRow right k)).length = tl.length + 1
    rw [List.length_append, ha]
    have htl := ih (fun l hl => h l (List.mem_cons_of_mem a hl))
    unfold merge_months_with_daioe at htl
    rw [htl]
    omega

theorem filter_joinKeyMatch_le_one (k : Nat) (daioe : List DaioeRow)
    (l : ScbCleanRow) :
    ((prepare_daioe_level1 k daioe).filter (joinKeyMatch l)).length ≤ 1 := by
  cases hc : l.code_1 with
  | none =>
    have hnil : (prepare_daioe_level1 k daioe).filter (joinKeyMatch l) = [] := by
      rw [List.filter_eq_nil_iff]
      intro r _
      unfold joinKeyMatch
      rw [hc]
      simp
    rw [hnil]
    simp
  | some c =>
    cases hy : l.year with
    | none =>
      have hnil : (prepare_daioe_level1 k daioe).filter (joinKeyMatch l) = [] := by
        rw [List.filter_eq_nil_iff]
        intro r _
        unfold joinKeyMatch
        rw [hc, hy]
        simp
      rw [hnil]
      simp
    | some y =>
      apply length_filter_le_one_of_key _ (fun r => (r.ssyk_code, r.year))
        (prepare_pair_keys_nodup k daioe) _ (some c, some y)
      intro r hpr
      unfold joinKeyMatch at hpr
      rw [hc, hy] at hpr
      cases hr1 : r.ssyk_code with
      | none => rw [hr1] at hpr; simp at hpr
      | some c2 =>
        cases hr2 : r.year with
        | none => rw [hr1, hr2] at hpr; simp at hpr
        | some y2 =>
          rw [hr1, hr2] at hpr
          simp at hpr
          simp [hr1, hr2, hpr.1, hpr.2]

/-- C1: for every Monthly input and every DAIOE input (whose aggregate
view is what the Merger receives on the right), the merged output has
exactly as many rows as the cleaned Monthly view: the aggregate's
group-by keys are unique, so the left join preserves left cardinality. -/
theorem merge_preserves_clean_row_count (scb : List ScbRow)
    (daioe : List DaioeRow) (k : Nat) :
    (merge_months_with_daioe (clean_scb_months scb)
      (prepare_daioe_level1 k daioe) k).length = (clean_scb_months scb).length :=
  merge_length_of_unique _ _ _ (fun l _ => filter_joinKeyMatch_le_one k daioe l)

/-- C8: every Merger output row is the monthly attributes of some left
row plus the aggregate's non-key measure columns — the `level` column is
dropped after the join, so `MergedRow` carries no `level` field; either
the row's `weight_sum` and measure columns come from a matching right
row, or no right row matches and both `weight_sum` and all `k` measure
columns are null while the monthly attributes are carried unchanged;
conversely, a left row with no matching (code, year) aggregate always
yields exactly such a null-measure merged row. -/
theorem merged_row_composition (left : List ScbCleanRow)
    (right : List DaioeAggRow) (k : Nat) :
    (∀ row ∈ merge_months_with_daioe left right k,
      ∃ l ∈ left,
        row.code_1 = l.code_1 ∧ row.month = l.month ∧ row.extra = l.extra ∧
        row.year = l.year ∧
        ((right.filter (joinKeyMatch l) = [] ∧ row.weight_sum = none ∧
            row.measures = List.replicate k none) ∨
          (∃ r ∈ right, joinKeyMatch l r = true ∧
            row.weight_sum = r.weight_sum ∧ row.measures = r.measures)))
    ∧ (∀ l ∈ left, right.filter (joinKeyMatch l) = [] →
        (⟨l.code_1, l.month, l.extra, l.year, none, List.replicate k none⟩ :
          MergedRow) ∈ merge_months_with_daioe left right k) := by
  constructor
  · intro row hrow
    obtain ⟨l, hl, hin⟩ := List.mem_flatMap.mp hrow
    refine ⟨l, hl, ?_⟩
    unfold joinOneRow at hin
    cases hm : right.filter (joinKeyMatch l) with
    | nil =>
      rw [hm] at hin
      simp only [List.mem_singleton] at hin
      subst hin
      exact ⟨rfl, rfl, rfl, rfl, Or.inl ⟨rfl, rfl, rfl⟩⟩
    | cons m ms =>
      rw [hm] at hin
      obtain ⟨r, hr, hrw⟩ := List.mem_map.mp hin
      rw [← hm] at hr
      have hr2 := List.mem_filter.mp hr
      subst hrw
      exact ⟨rfl, rfl, rfl, rfl, Or.inr ⟨r, hr2.1, hr2.2, rfl, rfl⟩⟩
  · intro l hl hfil
    apply List.mem_flatMap.mpr
    refine ⟨l, hl, ?_⟩
    unfold joinOneRow
    rw [hfil]
    exact List.mem_singleton.mpr rfl

theorem merged_row_composition_witness :
    (⟨some "1", some "2020M01", [], some 2020, none, [none, none]⟩ : MergedRow) ∈
      merge_months_with_daioe [⟨some "1", some "2020M01", [], some 2020⟩]
        [⟨some "SSYK1", some "2", some 2019, some 5, [none, none]⟩] 2 :=
  (merged_row_composition [⟨some "1", some "2020M01", [], some 2020⟩]
      [⟨some "SSYK1", some "2", some 2019, some 5, [none, none]⟩] 2).2
    ⟨some "1", some "2020M01", [], some 2020⟩ (by decide) (by decide)

end DaioeMonths
